import Mathlib

/-!
Verification of the `devimteam/jsonrpc` server (shallow embedding of
`server.go`, the error model, and — where the repository's `json2` codec
sources are absent — a model of that codec built from the specification).

The embedding represents one HTTP dispatch (`Server.ServeHTTP`) as a pure
function from a server value, a response-writer state and a request to a
`DispatchTrace`: the final writer state together with the observable events
of the dispatch (which terminal write happened, whether a codec was used,
the context produced by the hook chain, the sequence of `ReadRequest`
calls, and the argument list of the invocation if one happened).
-/

namespace Jsonrpc

/-- JSON values, the abstract syntax of wire payloads. -/
inductive Json where
  | null : Json
  | bool (b : Bool) : Json
  | num (n : Int) : Json
  | str (s : String) : Json
  | arr (elems : List Json) : Json
  | obj (fields : List (String × Json)) : Json
  deriving Inhabited

/-- Field lookup in a JSON object; `none` when the value is not an object or
the field is absent. -/
def jsonField (j : Json) (k : String) : Option Json :=
  match j with
  | .obj fs => (fs.find? (fun p => p.1 == k)).map (fun p => p.2)
  | _ => none

/-! ## Error model (`ErrorCode`, `Error`, from the error-model source file) -/

/-- `E_PARSE` from the error-model source: parse error. -/
def E_PARSE : Int := -32700

/-- `E_INVALID_REQ`: structurally invalid request. -/
def E_INVALID_REQ : Int := -32600

/-- `E_NO_METHOD`: method not found. -/
def E_NO_METHOD : Int := -32601

/-- `E_BAD_PARAMS`: invalid method parameters. -/
def E_BAD_PARAMS : Int := -32602

/-- `E_INTERNAL`: internal error. -/
def E_INTERNAL : Int := -32603

/-- `E_SERVER`: generic application/server error. -/
def E_SERVER : Int := -32000

/-- embedding of the Go `Error` struct: code, message and optional data. -/
structure Error where
  code : Int
  message : String
  data : Option Json := none

/-- embedding of `NewError`. -/
def NewError (code : Int) (message : String) : Error :=
  { code := code, message := message, data := none }

/-- embedding of the Go method `(e *Error) Error() string`: it returns the
message alone. -/
def Error.error (e : Error) : String := e.message

/-! ## Headers and the response writer -/

/-- `strings.ToLower`. -/
def strToLower (s : String) : String := ⟨s.data.map Char.toLower⟩

/-- case-insensitive header-key comparison (Go canonicalizes header keys). -/
def keyEq (a b : String) : Bool := strToLower a == strToLower b

/-- `Header.Set`: replace the value stored for a key, or append it. -/
def headerSet : List (String × String) → String → String → List (String × String)
  | [], k, v => [(k, v)]
  | (k', v') :: rest, k, v =>
      if keyEq k' k then (k, v) :: rest else (k', v') :: headerSet rest k v

/-- `Header.Get`: first value stored for a key, `""` when absent. -/
def headerGet : List (String × String) → String → String
  | [], _ => ""
  | (k', v) :: rest, k => if keyEq k' k then v else headerGet rest k

/-- state of an `http.ResponseWriter`: status written (first write wins),
headers and accumulated body. -/
structure ResponseWriter where
  status : Option Nat := none
  headers : List (String × String) := []
  body : String := ""
  deriving Repr, DecidableEq

/-- `WriteHeader`: records the status; later calls are ignored. -/
def ResponseWriter.writeHeader (w : ResponseWriter) (code : Nat) : ResponseWriter :=
  match w.status with
  | some _ => w
  | none => { w with status := some code }

/-- `Header().Set` on the writer. -/
def ResponseWriter.setHeader (w : ResponseWriter) (k v : String) : ResponseWriter :=
  { w with headers := headerSet w.headers k v }

/-- `Write`: appends to the body, defaulting the status to 200. -/
def ResponseWriter.write (w : ResponseWriter) (s : String) : ResponseWriter :=
  { w with body := w.body ++ s, status := some (w.status.getD 200) }

/-- embedding of the package-level `WriteError` (plain-text error): write the
status, set a plain-text content type, print the message. -/
def WriteError (w : ResponseWriter) (status : Nat) (msg : String) : ResponseWriter :=
  ((w.writeHeader status).setHeader "Content-Type" "text/plain; charset=utf-8").write msg

/-! ## Codec interface (`Codec`, `CodecRequest`) -/

/-- declared parameter types of a registered method: either the
context-carrying type (`typeOfContext`) or some other pointer type,
identified by a tag. -/
inductive ParamType where
  | ctxType : ParamType
  | valueType (tag : Nat) : ParamType
  deriving Repr, DecidableEq

/-- a materialized argument: either the dispatch context or a holder filled
by the codec. -/
inductive ArgVal (Ctx H : Type) where
  | ctxArg (c : Ctx) : ArgVal Ctx H
  | holderArg (v : H) : ArgVal Ctx H
  deriving Repr, DecidableEq

/-- one in-flight decode handle (`CodecRequest`): the extracted method name
(or error), the params decoder for a holder of a given declared type, the
two response encoders, and the raw body. -/
structure CodecRequest (Val H GoErr : Type) where
  methodResult : Except GoErr String
  readRequest : Nat → Except GoErr H
  writeResponse : ResponseWriter → Val → ResponseWriter
  writeError : ResponseWriter → Nat → GoErr → ResponseWriter
  body : String

/-- an incoming HTTP request as the dispatcher sees it. -/
structure Request (Ctx : Type) where
  method : String
  header : List (String × String)
  context : Ctx
  bodyJson : Json

/-- a `Codec` wraps each inbound request into a `CodecRequest`. -/
structure Codec (Ctx Val H GoErr : Type) where
  newRequest : Request Ctx → CodecRequest Val H GoErr

/-! ## Server -/

/-- Go-map insertion on an association list: replace the binding of the key
or append it. -/
def mapSet {α : Type} : List (String × α) → String → α → List (String × α)
  | [], k, v => [(k, v)]
  | (k', v') :: rest, k, v =>
      if k' == k then (k, v) :: rest else (k', v') :: mapSet rest k v

/-- Go-map lookup on an association list. -/
def mapGet {α : Type} : List (String × α) → String → Option α
  | [], _ => none
  | (k', v) :: rest, k => if k' == k then some v else mapGet rest k

/-- a resolved method: its declared parameter types and the bound call
(receiver already applied), returning the result slot and the error slot. -/
structure MethodSpec (Ctx Val H GoErr : Type) where
  argsType : List ParamType
  call : List (ArgVal Ctx H) → Val × Option GoErr

/-- the server: codec registry, service map (its lookup, as used by
`ServeHTTP` through `services.get`) and the ordered before-hook chain. -/
structure Server (Ctx Val H GoErr : Type) where
  codecs : List (String × Codec Ctx Val H GoErr) := []
  services : String → Except GoErr (MethodSpec Ctx Val H GoErr)
  before : List (Ctx → String → List (String × String) → CodecRequest Val H GoErr → Ctx) := []

/-- embedding of `RegisterCodec`: store the codec under the lowercased
content type. -/
def Server.registerCodec {Ctx Val H GoErr : Type} (s : Server Ctx Val H GoErr)
    (codec : Codec Ctx Val H GoErr) (contentType : String) : Server Ctx Val H GoErr :=
  { s with codecs := mapSet s.codecs (strToLower contentType) codec }

/-! ## Dispatch (`Server.ServeHTTP`) -/

/-- the terminal write of a dispatch: the package-level plain-text
`WriteError`, the codec's `WriteError`, or the codec's `WriteResponse`. -/
inductive WriteCall (Val GoErr : Type) where
  | plain (status : Nat) (msg : String) : WriteCall Val GoErr
  | codecError (status : Nat) (err : GoErr) : WriteCall Val GoErr
  | codecResponse (v : Val) : WriteCall Val GoErr
  deriving Repr, DecidableEq

/-- observable trace of one dispatch: final writer, terminal write, whether
a codec request was created, the extracted method name, the context after
the hook chain, the tags passed to `ReadRequest` in order, the invocation's
argument list if the method was called, and whether the dispatcher executed
its nosniff header set. -/
structure DispatchTrace (Ctx Val H GoErr : Type) where
  writer : ResponseWriter
  written : WriteCall Val GoErr
  codecUsed : Bool := false
  methodName : Option String := none
  hookCtx : Option Ctx := none
  reads : List Nat := []
  invokedArgs : Option (List (ArgVal Ctx H)) := none
  sniffHeaderSet : Bool := false
  deriving Repr, DecidableEq

/-- `contentType[:idx]` where `idx` is the position of the first `';'`
(the whole string when there is none). -/
def truncateContentType (s : String) : String := ⟨s.data.takeWhile (fun c => c ≠ ';')⟩

/-- codec selection of `ServeHTTP` (lines 113–131): truncate the
`Content-Type` header at the first `';'`; when it is empty and exactly one
codec is registered take that codec, otherwise look the lowercased value up
in the registry. -/
def Server.selectCodec {Ctx Val H GoErr : Type} (s : Server Ctx Val H GoErr)
    (r : Request Ctx) : Option (Codec Ctx Val H GoErr) :=
  let contentType := truncateContentType (headerGet r.header "Content-Type")
  if contentType == "" && s.codecs.length == 1 then
    s.codecs.head?.map (fun p => p.2)
  else
    mapGet s.codecs (strToLower contentType)

/-- the argument-materialization loop of `ServeHTTP` (lines 154–167): for
each declared parameter in order, a context-typed slot is bound to the
dispatch context without consulting the codec; any other slot gets a fresh
holder passed to `ReadRequest`, aborting at the first decode error.
Returns the tags passed to `ReadRequest` and the argument list or the
first error. -/
def decodeArgs {Ctx Val H GoErr : Type} (cr : CodecRequest Val H GoErr) (ctx : Ctx) :
    List ParamType → List Nat × Except GoErr (List (ArgVal Ctx H))
  | [] => ([], .ok [])
  | .ctxType :: rest =>
      let (rs, res) := decodeArgs cr ctx rest
      (rs, res.map (fun args => .ctxArg ctx :: args))
  | .valueType tag :: rest =>
      match cr.readRequest tag with
      | .error e => ([tag], .error e)
      | .ok v =>
          let (rs, res) := decodeArgs cr ctx rest
          (tag :: rs, res.map (fun args => .holderArg v :: args))

/-- `ServeHTTP` from the method lookup on (lines 147–188): resolve the
method, materialize the arguments, invoke, set the nosniff header, and
encode the error slot (400) or the result slot. -/
def Server.afterHooks {Ctx Val H GoErr : Type} (s : Server Ctx Val H GoErr)
    (codecReq : CodecRequest Val H GoErr) (w : ResponseWriter) (m : String) (ctx : Ctx) :
    DispatchTrace Ctx Val H GoErr :=
  match s.services m with
  | .error errGet =>
      { writer := codecReq.writeError w 400 errGet
        written := .codecError 400 errGet
        codecUsed := true, methodName := some m, hookCtx := some ctx }
  | .ok spec =>
      match decodeArgs codecReq ctx spec.argsType with
      | (rs, .error errRead) =>
          { writer := codecReq.writeError w 400 errRead
            written := .codecError 400 errRead
            codecUsed := true, methodName := some m, hookCtx := some ctx, reads := rs }
      | (rs, .ok args) =>
          let ret := spec.call args
          let w' := w.setHeader "x-content-type-options" "nosniff"
          match ret.2 with
          | none =>
              { writer := codecReq.writeResponse w' ret.1
                written := .codecResponse ret.1
                codecUsed := true, methodName := some m, hookCtx := some ctx
                reads := rs, invokedArgs := some args, sniffHeaderSet := true }
          | some errResult =>
              { writer := codecReq.writeError w' 400 errResult
                written := .codecError 400 errResult
                codecUsed := true, methodName := some m, hookCtx := some ctx
                reads := rs, invokedArgs := some args, sniffHeaderSet := true }

/-- `ServeHTTP` once a codec is selected (lines 134–145): create the codec
request, extract the method name (parse failure aborts with the codec's
error at 400), then thread the request context through the before hooks in
order. -/
def Server.afterCodec {Ctx Val H GoErr : Type} (s : Server Ctx Val H GoErr)
    (c : Codec Ctx Val H GoErr) (w : ResponseWriter) (r : Request Ctx) :
    DispatchTrace Ctx Val H GoErr :=
  let codecReq := c.newRequest r
  match codecReq.methodResult with
  | .error errMethod =>
      { writer := codecReq.writeError w 400 errMethod
        written := .codecError 400 errMethod
        codecUsed := true }
  | .ok m =>
      let ctx := s.before.foldl (fun a f => f a m r.header codecReq) r.context
      s.afterHooks codecReq w m ctx

/-- embedding of `Server.ServeHTTP`: reject non-POST with a plain 405,
select a codec (unknown content type: plain 415), then continue with the
codec. -/
def Server.serveHTTP {Ctx Val H GoErr : Type} (s : Server Ctx Val H GoErr)
    (w : ResponseWriter) (r : Request Ctx) : DispatchTrace Ctx Val H GoErr :=
  if r.method ≠ "POST" then
    { writer := WriteError w 405 ("rpc: POST method required, received " ++ r.method)
      written := .plain 405 ("rpc: POST method required, received " ++ r.method) }
  else
    match s.selectCodec r with
    | none =>
        let contentType := truncateContentType (headerGet r.header "Content-Type")
        { writer := WriteError w 415 ("rpc: unrecognized Content-Type: " ++ contentType)
          written := .plain 415 ("rpc: unrecognized Content-Type: " ++ contentType) }
    | some c => s.afterCodec c w r

/-! ## The json2 codec, modelled from the specification

The repository's `json2` codec sources are not under `src/` (only its
tests are), so the codec is modelled from the specification's contract
for the JSON-RPC 2.0 codec (§4.2) and the wire format (§6). -/

mutual

/-- JSON serialization (string escaping elided). -/
def renderJson : Json → String
  | .null => "null"
  | .bool true => "true"
  | .bool false => "false"
  | .num n => toString n
  | .str s => "\"" ++ s ++ "\""
  | .arr xs => "[" ++ renderJsonItems xs ++ "]"
  | .obj fs => "\x7b" ++ renderJsonFields fs ++ "\x7d"

/-- comma-separated array elements. -/
def renderJsonItems : List Json → String
  | [] => ""
  | [x] => renderJson x
  | x :: y :: rest => renderJson x ++ "," ++ renderJsonItems (y :: rest)

/-- comma-separated object fields. -/
def renderJsonFields : List (String × Json) → String
  | [] => ""
  | [(k, v)] => "\"" ++ k ++ "\":" ++ renderJson v
  | (k, v) :: g :: rest =>
      "\"" ++ k ++ "\":" ++ renderJson v ++ "," ++ renderJsonFields (g :: rest)

end

/-- Modelled from the spec: `method()` of the json2 codec (absent from
`src/`) — "parses just enough of the envelope to extract the method name;
fails with ParseError (code -32700) on malformed JSON/structure". -/
def json2Method (body : Json) : Except String String :=
  match jsonField body "method" with
  | some (.str m) => .ok m
  | _ => .error "rpc: parse error"

/-- Modelled from the spec: `readParams` of the json2 codec (absent from
`src/`) — "`params` absent or empty → holder left at zero value; `params`
as a single JSON object → decoded by field name into the holder's fields;
decoding `params` as a positional array into a single structured holder is
not supported and must fail (surfacing a decode/type error)". A holder is
modelled as the JSON object decoded into it, zero value `.obj []`. -/
def json2ReadRequest (body : Json) : Nat → Except String Json :=
  fun _ =>
    match jsonField body "params" with
    | none => .ok (.obj [])
    | some .null => .ok (.obj [])
    | some (.obj fs) => .ok (.obj fs)
    | some _ => .error "json: cannot unmarshal params into struct holder"

/-- Modelled from the spec: `writeResponse` of the json2 codec (absent from
`src/`) — "serializes the envelope with result = value", `id` echoed,
delivered with a 200-class transport outcome. -/
def json2WriteResponse (idv : Json) (w : ResponseWriter) (v : Json) : ResponseWriter :=
  (w.setHeader "Content-Type" "application/json; charset=utf-8").write
    (renderJson (.obj [("jsonrpc", .str "2.0"), ("id", idv), ("result", v)]))

/-- Modelled from the spec: `writeError` of the json2 codec (absent from
`src/`) — "serializes the envelope with error = code/message/data; an
untagged error is wrapped with code E_SERVER (-32000) and the error's
message text; the status hint is advisory only", so the transport outcome
stays 200-class. -/
def json2WriteError (idv : Json) (w : ResponseWriter) (_status : Nat) (msg : String) :
    ResponseWriter :=
  (w.setHeader "Content-Type" "application/json; charset=utf-8").write
    (renderJson (.obj [("jsonrpc", .str "2.0"), ("id", idv),
      ("error", .obj [("code", .num E_SERVER), ("message", .str msg)])]))

/-- Modelled from the spec: `newRequestContext` of the json2 codec (absent
from `src/`) — wraps one inbound request into a decode handle. -/
def json2CodecRequest {Ctx : Type} (r : Request Ctx) : CodecRequest Json Json String :=
  { methodResult := json2Method r.bodyJson
    readRequest := json2ReadRequest r.bodyJson
    writeResponse := json2WriteResponse ((jsonField r.bodyJson "id").getD .null)
    writeError := json2WriteError ((jsonField r.bodyJson "id").getD .null)
    body := renderJson r.bodyJson }

/-- Modelled from the spec: the json2 `Codec` (absent from `src/`). -/
def json2Codec {Ctx : Type} : Codec Ctx Json Json String :=
  { newRequest := json2CodecRequest }

/-! ## Client-side response decoding, modelled from the specification -/

/-- outcomes of the client-side decode: the distinguished null-result
condition (`ErrNullResult`), a server error envelope surfaced as an error,
or a generic decode error. -/
inductive ClientDecodeErr where
  | nullResult : ClientDecodeErr
  | rpcErr (e : Error) : ClientDecodeErr
  | decodeErr (msg : String) : ClientDecodeErr

/-- embedding of `ErrNullResult` (`server.go`): the distinguished error for
a null `result`. -/
def ErrNullResult : ClientDecodeErr := .nullResult

/-- its message text, `errors.New("result is null")`. -/
def ClientDecodeErr.message : ClientDecodeErr → String
  | .nullResult => "result is null"
  | .rpcErr e => e.error
  | .decodeErr msg => msg

/-- Modelled from the spec: `DecodeClientResponse` of the json2 codec
(absent from `src/`) — an `error` field in the envelope is surfaced as the
error; otherwise a null or absent `result` "must yield the distinguished
null-result condition and leave the output value untouched (nil/zero), not
a generic decode error"; otherwise the result is decoded into the output.
Returns the error (if any) and the output value after decoding. -/
def DecodeClientResponse (body : Json) (out : Json) : Option ClientDecodeErr × Json :=
  match jsonField body "error" with
  | some (.obj fs) =>
      (some (.rpcErr
        { code := match jsonField (.obj fs) "code" with
            | some (.num c) => c
            | _ => E_SERVER
          message := match jsonField (.obj fs) "message" with
            | some (.str m) => m
            | _ => "" }), out)
  | some _ => (some (.decodeErr "json: cannot unmarshal error"), out)
  | none =>
      match jsonField body "result" with
      | none => (some ErrNullResult, out)
      | some .null => (some ErrNullResult, out)
      | some v => (none, v)

/-! ## Helper functions and lemmas -/

/-- the tags of the non-context declared parameters, in order. -/
def valueTags : List ParamType → List Nat
  | [] => []
  | .ctxType :: rest => valueTags rest
  | .valueType t :: rest => t :: valueTags rest

/-- the argument list produced when every decode succeeds: context slots
carry the dispatch context, the others the holder the codec filled. -/
def bindArgs {Ctx H : Type} (ctx : Ctx) (f : Nat → H) : List ParamType → List (ArgVal Ctx H)
  | [] => []
  | .ctxType :: rest => .ctxArg ctx :: bindArgs ctx f rest
  | .valueType t :: rest => .holderArg (f t) :: bindArgs ctx f rest

/-! ## Concrete fixtures (mirroring `json2/json_test.go`) -/

/-- a fresh response writer. -/
def emptyWriter : ResponseWriter := {}

/-- model of the test service method `Service1.Multiply`: reads `A` and `B`
from the decoded holder; both zero yields the sentinel 9999. -/
def multiplyCall (args : List (ArgVal Nat Json)) : Json × Option String :=
  match args with
  | [.holderArg h] =>
      let a : Int := match jsonField h "A" with
        | some (.num a) => a
        | _ => 0
      let b : Int := match jsonField h "B" with
        | some (.num b) => b
        | _ => 0
      if a == 0 && b == 0 then (.obj [("Result", .num 9999)], none)
      else (.obj [("Result", .num (a * b))], none)
  | _ => (.null, some "wrong argument list")

/-- `Service1.Multiply`: one non-context parameter. -/
def multiplySpec : MethodSpec Nat Json Json String :=
  { argsType := [.valueType 0], call := multiplyCall }

/-- a method with a context parameter followed by a value parameter. -/
def ctxMethodSpec : MethodSpec Nat Json Json String :=
  { argsType := [.ctxType, .valueType 0]
    call := fun args =>
      match args with
      | [.ctxArg n, .holderArg _] => (.obj [("Ctx", .num (Int.ofNat n))], none)
      | _ => (.null, some "wrong argument list") }

/-- model of `Service1.ResponseError`: always returns an application error. -/
def respErrSpec : MethodSpec Nat Json Json String :=
  { argsType := [.valueType 0], call := fun _ => (.null, some "response error") }

/-- a test server with the json2 codec, the test services and a hook that
increments a numeric context. -/
def testServer : Server Nat Json Json String :=
  { codecs := [("application/json", json2Codec)]
    services := fun m =>
      if m = "Service1.Multiply" then .ok multiplySpec
      else if m = "Service1.ResponseError" then .ok respErrSpec
      else if m = "Svc.WithCtx" then .ok ctxMethodSpec
      else .error ("rpc: can't find service " ++ m)
    before := [fun a _ _ _ => a + 1] }

/-- a second codec, distinguishable from `json2Codec` by its `body`. -/
def xmlCodec : Codec Nat Json Json String :=
  { newRequest := fun r => { json2CodecRequest r with body := "xml" } }

/-- a server with one registered codec and no services. -/
def soleServer : Server Nat Json Json String :=
  { codecs := [("application/json", json2Codec)]
    services := fun m => .error ("rpc: can't find service " ++ m) }

/-- a server with two registered codecs and no services. -/
def twoCodecServer : Server Nat Json Json String :=
  { codecs := [("application/json", json2Codec), ("application/xml", xmlCodec)]
    services := fun m => .error ("rpc: can't find service " ++ m) }

/-- a server with no codecs and no services. -/
def emptyServer : Server Nat Json Json String :=
  { services := fun m => .error ("rpc: can't find service " ++ m) }

/-- request envelope for `Service1.Multiply` with object params, as in the
test. -/
def multiplyBody : Json :=
  .obj [("jsonrpc", .str "2.0"), ("method", .str "Service1.Multiply"),
    ("params", .obj [("A", .num 4), ("B", .num 2)]), ("id", .num 1)]

/-- POST request carrying `multiplyBody`. -/
def multiplyReq : Request Nat :=
  { method := "POST", header := [("Content-Type", "application/json")], context := 7,
    bodyJson := multiplyBody }

/-- POST request for the context-taking method. -/
def ctxReq : Request Nat :=
  { method := "POST", header := [("Content-Type", "application/json")], context := 7,
    bodyJson := .obj [("jsonrpc", .str "2.0"), ("method", .str "Svc.WithCtx"),
      ("params", .obj [("A", .num 4)]), ("id", .num 1)] }

/-- POST request for `Service1.ResponseError`. -/
def respErrReq : Request Nat :=
  { method := "POST", header := [("Content-Type", "application/json")], context := 7,
    bodyJson := .obj [("jsonrpc", .str "2.0"), ("method", .str "Service1.ResponseError"),
      ("params", .obj [("A", .num 4), ("B", .num 2)]), ("id", .num 2)] }

/-- POST request for an unregistered method name. -/
def unknownMethodReq : Request Nat :=
  { method := "POST", header := [("Content-Type", "application/json")], context := 7,
    bodyJson := .obj [("jsonrpc", .str "2.0"), ("method", .str "Nope.X"), ("id", .num 3)] }

/-- the test's by-position request: `params` is a positional array. -/
def arrayReq : Request Nat :=
  { method := "POST", header := [("Content-Type", "application/json")], context := 7,
    bodyJson := .obj [("jsonrpc", .str "2.0"),
      ("params", .arr [.obj [("T", .str "test")]]),
      ("method", .str "Service1.Multiply"), ("id", .num 1)] }

/-- a GET request. -/
def getReq : Request Nat :=
  { method := "GET", header := [], context := 0, bodyJson := .null }

/-- a POST request with no `Content-Type` header. -/
def noCTReq : Request Nat :=
  { method := "POST", header := [], context := 0,
    bodyJson := .obj [("jsonrpc", .str "2.0"), ("method", .str "Svc.M"), ("id", .num 1)] }

/-- a POST request whose `Content-Type` is `;charset=utf-8`: the header is
present and non-empty, but truncation at the first `;` leaves the empty
string. -/
def semicolonReq : Request Nat :=
  { method := "POST", header := [("Content-Type", ";charset=utf-8")], context := 0,
    bodyJson := .obj [("jsonrpc", .str "2.0"), ("method", .str "Svc.M"), ("id", .num 1)] }

/-- the null-result response body of `TestDecodeNullResult`. -/
def nullResultBody : Json :=
  .obj [("jsonrpc", .str "2.0"), ("id", .num 12345), ("result", .null)]

/-- an error-envelope response body. -/
def errEnvelopeBody : Json :=
  .obj [("jsonrpc", .str "2.0"), ("id", .num 1),
    ("error", .obj [("code", .num (-32000)), ("message", .str "response error")])]

/-! ## Lemmas -/

theorem decodeArgs_ok {Ctx Val H GoErr : Type} (cr : CodecRequest Val H GoErr) (ctx : Ctx)
    (f : Nat → H) (l : List ParamType)
    (h : ∀ t ∈ valueTags l, cr.readRequest t = .ok (f t)) :
    decodeArgs cr ctx l = (valueTags l, .ok (bindArgs ctx f l)) := by
  induction l with
  | nil => rfl
  | cons p rest ih =>
      cases p with
      | ctxType =>
          have := ih (fun t ht => h t ht)
          simp [decodeArgs, valueTags, bindArgs, this, Except.map]
      | valueType t =>
          have ht : cr.readRequest t = .ok (f t) := h t (by simp [valueTags])
          have hrest := ih (fun t' ht' => h t' (by simp [valueTags, ht']))
          simp [decodeArgs, valueTags, bindArgs, ht, hrest, Except.map]

theorem decodeArgs_err {Ctx Val H GoErr : Type} (cr : CodecRequest Val H GoErr) (ctx : Ctx)
    (f : Nat → H) (e : GoErr) (l : List ParamType) (l1 : List Nat) (t : Nat) (l2 : List Nat)
    (hsplit : valueTags l = l1 ++ t :: l2)
    (hpre : ∀ t' ∈ l1, cr.readRequest t' = .ok (f t'))
    (hfail : cr.readRequest t = .error e) :
    decodeArgs cr ctx l = (l1 ++ [t], .error e) := by
  induction l generalizing l1 with
  | nil => simp [valueTags] at hsplit
  | cons p rest ih =>
      cases p with
      | ctxType =>
          have := ih l1 (by simpa [valueTags] using hsplit) hpre
          simp [decodeArgs, this, Except.map]
      | valueType tg =>
          cases l1 with
          | nil =>
              have htg : tg = t ∧ valueTags rest = l2 := by
                simpa [valueTags] using hsplit
              obtain ⟨rfl, _⟩ := htg
              simp [decodeArgs, hfail]
          | cons t1 l1' =>
              have ht1 : tg = t1 ∧ valueTags rest = l1' ++ t :: l2 := by
                simpa [valueTags] using hsplit
              obtain ⟨heq, hrest⟩ := ht1
              subst heq
              have hok : cr.readRequest tg = .ok (f tg) := hpre tg (by simp)
              have hres := ih l1' hrest (fun t' ht' => hpre t' (List.mem_cons_of_mem _ ht'))
              simp [decodeArgs, hok, hres, Except.map]

theorem decodeArgs_const_err {Ctx Val H GoErr : Type} (cr : CodecRequest Val H GoErr)
    (ctx : Ctx) (msg : GoErr) (l : List ParamType) (t : Nat)
    (hconst : ∀ tg, cr.readRequest tg = .error msg)
    (hmem : ParamType.valueType t ∈ l) :
    ∃ t0, decodeArgs cr ctx l = ([t0], .error msg) := by
  induction l with
  | nil => simp at hmem
  | cons p rest ih =>
      cases p with
      | ctxType =>
          have hmem' : ParamType.valueType t ∈ rest := by simpa using hmem
          obtain ⟨t0, h0⟩ := ih hmem'
          exact ⟨t0, by simp [decodeArgs, h0, Except.map]⟩
      | valueType tg =>
          exact ⟨tg, by simp [decodeArgs, hconst tg]⟩

theorem serveHTTP_not_post {Ctx Val H GoErr : Type} (s : Server Ctx Val H GoErr)
    (w : ResponseWriter) (r : Request Ctx) (h : r.method ≠ "POST") :
    s.serveHTTP w r =
      { writer := WriteError w 405 ("rpc: POST method required, received " ++ r.method)
        written := .plain 405 ("rpc: POST method required, received " ++ r.method) } := by
  simp [Server.serveHTTP, h]

theorem serveHTTP_no_codec {Ctx Val H GoErr : Type} (s : Server Ctx Val H GoErr)
    (w : ResponseWriter) (r : Request Ctx) (hpost : r.method = "POST")
    (hsel : s.selectCodec r = none) :
    s.serveHTTP w r =
      { writer := WriteError w 415 ("rpc: unrecognized Content-Type: " ++
          truncateContentType (headerGet r.header "Content-Type"))
        written := .plain 415 ("rpc: unrecognized Content-Type: " ++
          truncateContentType (headerGet r.header "Content-Type")) } := by
  simp [Server.serveHTTP, hpost, hsel]

theorem serveHTTP_post_codec {Ctx Val H GoErr : Type} (s : Server Ctx Val H GoErr)
    (w : ResponseWriter) (r : Request Ctx) (c : Codec Ctx Val H GoErr) (m : String)
    (hpost : r.method = "POST") (hsel : s.selectCodec r = some c)
    (hm : (c.newRequest r).methodResult = .ok m) :
    s.serveHTTP w r =
      s.afterHooks (c.newRequest r) w m
        (s.before.foldl (fun a g => g a m r.header (c.newRequest r)) r.context) := by
  simp [Server.serveHTTP, hpost, hsel, Server.afterCodec, hm]

theorem serveHTTP_parse_error {Ctx Val H GoErr : Type} (s : Server Ctx Val H GoErr)
    (w : ResponseWriter) (r : Request Ctx) (c : Codec Ctx Val H GoErr) (e : GoErr)
    (hpost : r.method = "POST") (hsel : s.selectCodec r = some c)
    (hm : (c.newRequest r).methodResult = .error e) :
    s.serveHTTP w r =
      { writer := (c.newRequest r).writeError w 400 e
        written := .codecError 400 e
        codecUsed := true } := by
  simp [Server.serveHTTP, hpost, hsel, Server.afterCodec, hm]

theorem afterHooks_hookCtx {Ctx Val H GoErr : Type} (s : Server Ctx Val H GoErr)
    (cr : CodecRequest Val H GoErr) (w : ResponseWriter) (m : String) (ctx : Ctx) :
    (s.afterHooks cr w m ctx).hookCtx = some ctx ∧
    (s.afterHooks cr w m ctx).methodName = some m := by
  unfold Server.afterHooks
  rcases s.services m with _ | spec
  · exact ⟨rfl, rfl⟩
  · rcases hdec : decodeArgs cr ctx spec.argsType with ⟨rs, res⟩
    rcases res with e | args
    · simp [hdec]
    · rcases hret : (spec.call args).2 with _ | e <;> simp [hdec, hret]

theorem headerGet_headerSet_self (hs : List (String × String)) (k v : String) :
    headerGet (headerSet hs k v) k = v := by
  induction hs with
  | nil => simp [headerSet, headerGet, keyEq]
  | cons p rest ih =>
      rcases p with ⟨k', v'⟩
      by_cases h : keyEq k' k
      · have h' : strToLower k' = strToLower k := by simpa [keyEq] using h
        simp [headerSet, keyEq, h', headerGet]
      · simpa [headerSet, h, headerGet] using ih

theorem mapGet_mapSet_self {α : Type} (m : List (String × α)) (k : String) (v : α) :
    mapGet (mapSet m k v) k = some v := by
  induction m with
  | nil => simp [mapSet, mapGet]
  | cons p rest ih =>
      rcases p with ⟨k', v'⟩
      by_cases h : k' == k
      · simp [mapSet, h, mapGet]
      · simpa [mapSet, h, mapGet] using ih

theorem mapSet_mapSet_cancel {α : Type} (m : List (String × α)) (k : String) (v1 v2 : α) :
    mapSet (mapSet m k v1) k v2 = mapSet m k v2 := by
  induction m with
  | nil => simp [mapSet]
  | cons p rest ih =>
      by_cases h : p.1 == k
      · simp [mapSet, h]
      · simp [mapSet, h, ih]

/-! ## Claims -/

/-- C9: the numeric error codes of the error model are exactly the fixed
wire-contract values — parse error -32700, invalid request -32600, method
not found -32601, invalid params -32602, internal error -32603, generic
server error -32000 — and an `Error` value's error-string is exactly its
`Message` field, with `Code` and `Data` contributing nothing to it. -/
theorem C9_error_codes_and_message :
    E_PARSE = -32700 ∧ E_INVALID_REQ = -32600 ∧ E_NO_METHOD = -32601 ∧
    E_BAD_PARAMS = -32602 ∧ E_INTERNAL = -32603 ∧ E_SERVER = -32000 ∧
    (∀ e : Error, e.error = e.message) ∧
    (∀ (ca cb : Int) (msg : String) (da db : Option Json),
        (Error.mk ca msg da).error = msg ∧
        (Error.mk ca msg da).error = (Error.mk cb msg db).error) :=
  ⟨rfl, rfl, rfl, rfl, rfl, rfl, fun _ => rfl, fun _ _ _ _ _ => ⟨rfl, rfl⟩⟩

/-- C5: for every success-shaped response envelope whose `result` field is
JSON null, client-side decoding returns the distinguished `ErrNullResult`
error (not a generic decode error) and leaves the caller's output value
untouched. -/
theorem C5_null_result_decoding (body out : Json)
    (hnoerr : jsonField body "error" = none)
    (hnull : jsonField body "result" = some .null) :
    DecodeClientResponse body out = (some ErrNullResult, out) := by
  simp [DecodeClientResponse, hnoerr, hnull]

/-- witness for C5 at the test body of `TestDecodeNullResult`. -/
theorem C5_null_result_decoding_witness :
    DecodeClientResponse nullResultBody .null = (some ErrNullResult, .null) :=
  C5_null_result_decoding nullResultBody .null rfl rfl

/-- C8: for every request whose transport method is not POST, dispatch
terminates immediately with status 405 and a plain-text message (not a
JSON-RPC error envelope): no codec is selected, no hook runs, and no
method is looked up or invoked. -/
theorem C8_non_post_rejected {Ctx Val H GoErr : Type} (s : Server Ctx Val H GoErr)
    (w : ResponseWriter) (r : Request Ctx)
    (h : r.method ≠ "POST") (hw : w.status = none) :
    (s.serveHTTP w r).written =
      .plain 405 ("rpc: POST method required, received " ++ r.method) ∧
    (s.serveHTTP w r).writer.status = some 405 ∧
    (s.serveHTTP w r).writer.body =
      w.body ++ ("rpc: POST method required, received " ++ r.method) ∧
    headerGet (s.serveHTTP w r).writer.headers "Content-Type" =
      "text/plain; charset=utf-8" ∧
    (s.serveHTTP w r).codecUsed = false ∧
    (s.serveHTTP w r).methodName = none ∧
    (s.serveHTTP w r).hookCtx = none ∧
    (s.serveHTTP w r).reads = [] ∧
    (s.serveHTTP w r).invokedArgs = none := by
  rw [serveHTTP_not_post s w r h]
  refine ⟨rfl, ?_, ?_, ?_, rfl, rfl, rfl, rfl, rfl⟩ <;>
    simp [WriteError, ResponseWriter.writeHeader, ResponseWriter.setHeader,
      ResponseWriter.write, hw, headerGet_headerSet_self]

/-- witness for C8 at a concrete GET request. -/
theorem C8_non_post_rejected_witness :
    (soleServer.serveHTTP emptyWriter getReq).written =
      .plain 405 ("rpc: POST method required, received " ++ "GET") ∧
    (soleServer.serveHTTP emptyWriter getReq).writer.status = some 405 ∧
    (soleServer.serveHTTP emptyWriter getReq).writer.body =
      "" ++ ("rpc: POST method required, received " ++ "GET") ∧
    headerGet (soleServer.serveHTTP emptyWriter getReq).writer.headers "Content-Type" =
      "text/plain; charset=utf-8" ∧
    (soleServer.serveHTTP emptyWriter getReq).codecUsed = false ∧
    (soleServer.serveHTTP emptyWriter getReq).methodName = none ∧
    (soleServer.serveHTTP emptyWriter getReq).hookCtx = none ∧
    (soleServer.serveHTTP emptyWriter getReq).reads = [] ∧
    (soleServer.serveHTTP emptyWriter getReq).invokedArgs = none :=
  C8_non_post_rejected soleServer emptyWriter getReq (by decide) rfl

/-- C10: `RegisterCodec` stores every codec under the lowercased content
type; registering two codecs whose content types differ only in letter
case overwrites the first with the second, and a subsequent request
matches the surviving codec regardless of the case used in its
`Content-Type` header. -/
theorem C10_register_codec_lowercase {Ctx Val H GoErr : Type}
    (s : Server Ctx Val H GoErr) (c1 c2 : Codec Ctx Val H GoErr) (ct1 ct2 : String)
    (hcase : strToLower ct1 = strToLower ct2) :
    ((s.registerCodec c1 ct1).registerCodec c2 ct2).codecs =
      (s.registerCodec c2 ct2).codecs ∧
    (∀ ct : String, strToLower ct = strToLower ct2 →
        mapGet ((s.registerCodec c1 ct1).registerCodec c2 ct2).codecs (strToLower ct) =
          some c2) ∧
    (∀ (r : Request Ctx) (hv : String),
        headerGet r.header "Content-Type" = hv →
        truncateContentType hv ≠ "" →
        strToLower (truncateContentType hv) = strToLower ct2 →
        ((s.registerCodec c1 ct1).registerCodec c2 ct2).selectCodec r = some c2) := by
  have hsetset : ((s.registerCodec c1 ct1).registerCodec c2 ct2).codecs =
      mapSet s.codecs (strToLower ct2) c2 := by
    simp only [Server.registerCodec]
    rw [hcase, mapSet_mapSet_cancel]
  refine ⟨by rw [hsetset]; simp only [Server.registerCodec], ?_, ?_⟩
  · intro ct hct
    rw [hct, hsetset]
    exact mapGet_mapSet_self s.codecs (strToLower ct2) c2
  · intro r hv hget hne hlower
    have hbeq : (truncateContentType hv == "") = false := by
      simpa using hne
    simp [Server.selectCodec, hget, hbeq, hsetset, hlower,
      mapGet_mapSet_self]

/-- C1: during dispatch, for every declared parameter of the resolved
method, taken in order: a context-typed slot is bound to the hook-enriched
dispatch context and the codec is never consulted for it; every other slot
gets a fresh holder of the declared type passed to `ReadRequest`, and the
first decode failure terminates dispatch with the codec's error at status
400 without invoking the method. -/
theorem C1_parameter_materialization {Ctx Val H GoErr : Type}
    (s : Server Ctx Val H GoErr) (w : ResponseWriter) (r : Request Ctx)
    (c : Codec Ctx Val H GoErr) (m : String) (spec : MethodSpec Ctx Val H GoErr)
    (ctx : Ctx) (f : Nat → H)
    (hpost : r.method = "POST")
    (hsel : s.selectCodec r = some c)
    (hm : (c.newRequest r).methodResult = .ok m)
    (hctx : ctx = s.before.foldl (fun a g => g a m r.header (c.newRequest r)) r.context)
    (hsvc : s.services m = .ok spec) :
    ((∀ t ∈ valueTags spec.argsType, (c.newRequest r).readRequest t = .ok (f t)) →
        (s.serveHTTP w r).reads = valueTags spec.argsType ∧
        (s.serveHTTP w r).invokedArgs = some (bindArgs ctx f spec.argsType)) ∧
    (∀ (l1 : List Nat) (t : Nat) (l2 : List Nat) (e : GoErr),
        valueTags spec.argsType = l1 ++ t :: l2 →
        (∀ t' ∈ l1, (c.newRequest r).readRequest t' = .ok (f t')) →
        (c.newRequest r).readRequest t = .error e →
        (s.serveHTTP w r).written = .codecError 400 e ∧
        (s.serveHTTP w r).invokedArgs = none ∧
        (s.serveHTTP w r).reads = l1 ++ [t]) := by
  have hserve := serveHTTP_post_codec s w r c m hpost hsel hm
  rw [← hctx] at hserve
  refine ⟨fun hok => ?_, fun l1 t l2 e hsp hpre hfail => ?_⟩
  · have hd := decodeArgs_ok (c.newRequest r) ctx f spec.argsType hok
    rcases hret : (spec.call (bindArgs ctx f spec.argsType)).2 with _ | e <;>
      simp [hserve, Server.afterHooks, hsvc, hd, hret]
  · have hd := decodeArgs_err (c.newRequest r) ctx f e spec.argsType l1 t l2 hsp hpre hfail
    simp [hserve, Server.afterHooks, hsvc, hd]

/-- witness for C1: the context-and-value method invoked with the enriched
context in the context slot and the decoded holder in the value slot. -/
theorem C1_parameter_materialization_witness :
    (testServer.serveHTTP emptyWriter ctxReq).reads = [0] ∧
    (testServer.serveHTTP emptyWriter ctxReq).invokedArgs =
      some [.ctxArg 8, .holderArg (.obj [("A", .num 4)])] :=
  (C1_parameter_materialization testServer emptyWriter ctxReq json2Codec
      "Svc.WithCtx" ctxMethodSpec 8 (fun _ => .obj [("A", .num 4)])
      rfl rfl rfl rfl rfl).1
    (fun _ _ => rfl)

/-- C2: after the method is invoked, exactly one of two encodings happens:
a non-nil error return makes the dispatcher call the codec's `WriteError`
with status 400 and that error (the result slot is not encoded); a nil
error makes it call `WriteResponse` with the result slot's value. -/
theorem C2_result_encoding {Ctx Val H GoErr : Type}
    (s : Server Ctx Val H GoErr) (w : ResponseWriter) (r : Request Ctx)
    (c : Codec Ctx Val H GoErr) (m : String) (spec : MethodSpec Ctx Val H GoErr)
    (ctx : Ctx) (f : Nat → H)
    (hpost : r.method = "POST")
    (hsel : s.selectCodec r = some c)
    (hm : (c.newRequest r).methodResult = .ok m)
    (hctx : ctx = s.before.foldl (fun a g => g a m r.header (c.newRequest r)) r.context)
    (hsvc : s.services m = .ok spec)
    (hok : ∀ t ∈ valueTags spec.argsType, (c.newRequest r).readRequest t = .ok (f t)) :
    ((spec.call (bindArgs ctx f spec.argsType)).2 = none →
        (s.serveHTTP w r).written =
          .codecResponse (spec.call (bindArgs ctx f spec.argsType)).1) ∧
    (∀ e : GoErr, (spec.call (bindArgs ctx f spec.argsType)).2 = some e →
        (s.serveHTTP w r).written = .codecError 400 e) := by
  have hserve := serveHTTP_post_codec s w r c m hpost hsel hm
  rw [← hctx] at hserve
  have hd := decodeArgs_ok (c.newRequest r) ctx f spec.argsType hok
  refine ⟨fun hnone => ?_, fun e he => ?_⟩
  · simp [hserve, Server.afterHooks, hsvc, hd, hnone]
  · simp [hserve, Server.afterHooks, hsvc, hd, he]

/-- witness for C2: `Service1.ResponseError` returns an application error,
which is encoded through the codec's `WriteError` at 400. -/
theorem C2_result_encoding_witness :
    (testServer.serveHTTP emptyWriter respErrReq).written =
      .codecError 400 "response error" :=
  (C2_result_encoding testServer emptyWriter respErrReq json2Codec
      "Service1.ResponseError" respErrSpec 8
      (fun _ => .obj [("A", .num 4), ("B", .num 2)])
      rfl rfl rfl rfl rfl (fun _ _ => rfl)).2
    "response error" rfl

/-- C6: for every request that reaches hook execution, the registered
pre-dispatch hooks run in registration order, each receiving the context
returned by the previous hook (starting from the request's context)
together with the method name, the transport headers and the codec request
handle; the context after the last hook is the one bound to context-typed
parameters; and the chain runs after method-name extraction but before
method-table resolution, so it runs even when the method is unregistered. -/
theorem C6_before_hook_chain {Ctx Val H GoErr : Type}
    (s : Server Ctx Val H GoErr) (w : ResponseWriter) (r : Request Ctx)
    (c : Codec Ctx Val H GoErr) (m : String)
    (hpost : r.method = "POST")
    (hsel : s.selectCodec r = some c)
    (hm : (c.newRequest r).methodResult = .ok m) :
    (s.serveHTTP w r).hookCtx =
      some (s.before.foldl (fun a g => g a m r.header (c.newRequest r)) r.context) ∧
    (s.serveHTTP w r).methodName = some m ∧
    (∀ eg : GoErr, s.services m = .error eg →
        (s.serveHTTP w r).written = .codecError 400 eg ∧
        (s.serveHTTP w r).invokedArgs = none) := by
  have hserve := serveHTTP_post_codec s w r c m hpost hsel hm
  refine ⟨?_, ?_, fun eg heg => ?_⟩
  · rw [hserve]
    exact (afterHooks_hookCtx s (c.newRequest r) w m _).1
  · rw [hserve]
    exact (afterHooks_hookCtx s (c.newRequest r) w m _).2
  · constructor <;> simp [hserve, Server.afterHooks, heg]

/-- witness for C6: an unregistered method name still runs the hook chain
(context 7 enriched to 8) before the lookup failure is encoded. -/
theorem C6_before_hook_chain_witness :
    (testServer.serveHTTP emptyWriter unknownMethodReq).hookCtx = some 8 ∧
    (testServer.serveHTTP emptyWriter unknownMethodReq).methodName = some "Nope.X" ∧
    (testServer.serveHTTP emptyWriter unknownMethodReq).written =
      .codecError 400 ("rpc: can't find service " ++ "Nope.X") :=
  have h := C6_before_hook_chain testServer emptyWriter unknownMethodReq json2Codec
    "Nope.X" rfl rfl rfl
  ⟨h.1, h.2.1, (h.2.2 ("rpc: can't find service " ++ "Nope.X") rfl).1⟩

/-- C3 (amended): for every POST request the Content-Type header is
truncated at the first `;`; if the truncated value is empty and exactly
one codec is registered, that sole codec is used without consulting the
registry; otherwise the registry is consulted with the lowercased
truncated value, and when no codec matches, dispatch terminates with
status 415 and no codec is invoked. -/
theorem C3_codec_selection {Ctx Val H GoErr : Type}
    (s : Server Ctx Val H GoErr) (w : ResponseWriter) (r : Request Ctx) (ct : String)
    (hpost : r.method = "POST")
    (hct : ct = truncateContentType (headerGet r.header "Content-Type")) :
    (∀ (k : String) (c : Codec Ctx Val H GoErr),
        ct = "" → s.codecs = [(k, c)] → s.selectCodec r = some c) ∧
    (¬(ct = "" ∧ s.codecs.length = 1) →
        s.selectCodec r = mapGet s.codecs (strToLower ct)) ∧
    (s.selectCodec r = none →
        (s.serveHTTP w r).written =
          .plain 415 ("rpc: unrecognized Content-Type: " ++ ct) ∧
        (s.serveHTTP w r).codecUsed = false ∧
        (s.serveHTTP w r).hookCtx = none ∧
        (s.serveHTTP w r).invokedArgs = none) := by
  subst hct
  refine ⟨?_, ?_, fun hnone => ?_⟩
  · intro k c hempty hcodecs
    simp [Server.selectCodec, hempty, hcodecs]
  · intro hnot
    by_cases he : truncateContentType (headerGet r.header "Content-Type") = ""
    · have hlen : s.codecs.length ≠ 1 := fun hl => hnot ⟨he, hl⟩
      simp [Server.selectCodec, he, hlen]
    · simp [Server.selectCodec, he]
  · rw [serveHTTP_no_codec s w r hpost hnone]
    exact ⟨rfl, rfl, rfl, rfl⟩

/-- counterexample to C3 as stated: `soleServer` has one codec registered
at `application/json`; a POST request with `Content-Type: ;charset=utf-8`
has a present, non-empty header, and no codec matches the truncated,
lowercased content type — so the claim requires termination with 415 —
yet the code applies the sole-codec default (it tests emptiness of the
truncated value, not absence of the header) and dispatch proceeds into the
codec, ending at the method-lookup failure instead. -/
theorem C3_codec_selection_counterexample :
    headerGet semicolonReq.header "Content-Type" = ";charset=utf-8" ∧
    mapGet soleServer.codecs
      (strToLower (truncateContentType
        (headerGet semicolonReq.header "Content-Type"))) = none ∧
    (soleServer.serveHTTP emptyWriter semicolonReq).written =
      .codecError 400 ("rpc: can't find service " ++ "Svc.M") ∧
    (soleServer.serveHTTP emptyWriter semicolonReq).codecUsed = true :=
  ⟨rfl, rfl, rfl, rfl⟩

/-- witness for C3 (amended): two codecs registered and no Content-Type
header terminates with a plain 415 and no codec use. -/
theorem C3_codec_selection_witness :
    (twoCodecServer.serveHTTP emptyWriter noCTReq).written =
      .plain 415 ("rpc: unrecognized Content-Type: " ++ "") ∧
    (twoCodecServer.serveHTTP emptyWriter noCTReq).codecUsed = false ∧
    (twoCodecServer.serveHTTP emptyWriter noCTReq).hookCtx = none ∧
    (twoCodecServer.serveHTTP emptyWriter noCTReq).invokedArgs = none :=
  (C3_codec_selection twoCodecServer emptyWriter noCTReq "" rfl rfl).2.2 rfl

/-- C4: for every request whose `params` field is a JSON positional array
rather than an object, decoding the params into a structured holder fails,
the method is never invoked (the holder is never bound by position), the
codec's error is written at status 400, and a client decoding the
resulting error envelope leaves its output value untouched. -/
theorem C4_positional_params_rejected {Ctx : Type}
    (s : Server Ctx Json Json String) (w : ResponseWriter) (r : Request Ctx)
    (m : String) (spec : MethodSpec Ctx Json Json String) (ps : List Json) (t : Nat)
    (hpost : r.method = "POST")
    (hsel : s.selectCodec r = some json2Codec)
    (harr : jsonField r.bodyJson "params" = some (.arr ps))
    (hm : json2Method r.bodyJson = .ok m)
    (hsvc : s.services m = .ok spec)
    (hvt : ParamType.valueType t ∈ spec.argsType) :
    (s.serveHTTP w r).invokedArgs = none ∧
    (s.serveHTTP w r).written =
      .codecError 400 "json: cannot unmarshal params into struct holder" ∧
    (∀ (body out e : Json), jsonField body "error" = some e →
        (DecodeClientResponse body out).2 = out) := by
  have hserve := serveHTTP_post_codec s w r json2Codec m hpost hsel hm
  have hconst : ∀ tg, (json2Codec.newRequest r).readRequest tg =
      .error "json: cannot unmarshal params into struct holder" := by
    intro tg
    show json2ReadRequest r.bodyJson tg = _
    simp [json2ReadRequest, harr]
  obtain ⟨t0, hd⟩ := decodeArgs_const_err (json2Codec.newRequest r)
    (s.before.foldl (fun a g => g a m r.header (json2Codec.newRequest r)) r.context)
    "json: cannot unmarshal params into struct holder" spec.argsType t hconst hvt
  refine ⟨?_, ?_, fun body out e he => ?_⟩
  · simp [hserve, Server.afterHooks, hsvc, hd]
  · simp [hserve, Server.afterHooks, hsvc, hd]
  · cases e <;> simp [DecodeClientResponse, he]

/-- witness for C4 at the test's by-position request. -/
theorem C4_positional_params_rejected_witness :
    (testServer.serveHTTP emptyWriter arrayReq).invokedArgs = none ∧
    (testServer.serveHTTP emptyWriter arrayReq).written =
      .codecError 400 "json: cannot unmarshal params into struct holder" ∧
    (DecodeClientResponse errEnvelopeBody (.obj [])).2 = .obj [] :=
  have h := C4_positional_params_rejected testServer emptyWriter arrayReq
    "Service1.Multiply" multiplySpec [.obj [("T", .str "test")]] 0
    rfl rfl rfl rfl rfl (by decide)
  ⟨h.1, h.2.1, h.2.2 errEnvelopeBody (.obj [])
    (.obj [("code", .num (-32000)), ("message", .str "response error")]) rfl⟩

/-- C7 (amended): the dispatcher sets the sniffing-disabling header
exactly on the outcomes that reach method invocation (success and
application error); on every earlier termination — non-POST, unrecognized
content type, parse error, method-not-found, parameter-decode error — it
does not set the header. -/
theorem C7_nosniff_on_invocation {Ctx Val H GoErr : Type}
    (s : Server Ctx Val H GoErr) (w : ResponseWriter) (r : Request Ctx) :
    (s.serveHTTP w r).sniffHeaderSet = (s.serveHTTP w r).invokedArgs.isSome := by
  unfold Server.serveHTTP
  split
  · rfl
  · split
    · rfl
    · unfold Server.afterCodec
      dsimp only
      split
      · rfl
      · unfold Server.afterHooks
        split
        · rfl
        · split
          · rfl
          · dsimp only
            split <;> rfl

/-- counterexample to C7 as stated: a non-POST dispatch is an outcome
whose response does not carry the `x-content-type-options: nosniff`
header. -/
theorem C7_nosniff_counterexample :
    (soleServer.serveHTTP emptyWriter getReq).written =
      .plain 405 ("rpc: POST method required, received " ++ "GET") ∧
    headerGet (soleServer.serveHTTP emptyWriter getReq).writer.headers
      "x-content-type-options" ≠ "nosniff" :=
  ⟨rfl, by decide⟩

/-- witness for C10: register under `Application/JSON` then
`application/json`; a lookup with `APPLICATION/JSON` finds the second. -/
theorem C10_register_codec_lowercase_witness :
    mapGet ((emptyServer.registerCodec xmlCodec "Application/JSON").registerCodec
      json2Codec "application/json").codecs (strToLower "APPLICATION/JSON") =
      some json2Codec :=
  (C10_register_codec_lowercase emptyServer xmlCodec json2Codec
    "Application/JSON" "application/json" (by decide)).2.1 "APPLICATION/JSON" (by decide)

end Jsonrpc
